import Mathlib

/-!
Shallow embedding of `streetartcities2gpx.py`, a script that merges one or
more JSON "items" documents into a single GPX 1.1 waypoint file.

Modelling conventions:
* strings are modelled as `List Char` (abbreviated `Str`);
* the Python values produced by `json.load` are modelled by `Json`
  (`None`, `bool`, `int`, `float`, `str`, `list`, `dict`); Python floats are
  modelled as rationals, which is exact for every decimal literal the script
  ever formats;
* code paths on which Python raises an uncaught exception (for example
  `.get` on a non-dict, `str.join` over non-strings, hashing an unhashable
  dedup key) are modelled as `Except Unit` errors; an uncaught exception
  terminates the interpreter with exit code 1;
* `datetime.now(...)` is a parameter of the serializer (`now_iso`), and the
  pre-determined outcome of `load_input` for each source is a parameter of
  the main loop, since both are the only effectful inputs.
-/

namespace StreetArt

abbrev Str := List Char

/-- The double-quote character (escaped by `html.escape(..., quote=True)`). -/
def quoteChar : Char := Char.ofNat 34

/-- The apostrophe character (escaped by `html.escape(..., quote=True)`). -/
def aposChar : Char := Char.ofNat 39

/-- Python values arising from `json.load`: `None`, `bool`, `int`, `float`,
`str`, `list`, `dict`.  JSON `null` and a missing dictionary key both read
back as `None` through `dict.get`, so both are `jnull` downstream.  A float
is the decimal `m / 10 ^ e`, exact for every JSON decimal literal; the
binary rounding of IEEE doubles is outside the scope of every claim. -/
inductive Json where
  | jnull
  | jbool (b : Bool)
  | jint (n : Int)
  | jfloat (m : Int) (e : Nat)
  | jstr (s : Str)
  | jarr (xs : List Json)
  | jobj (fields : List (Str × Json))

/-- Python truthiness: `None`, `False`, `0`, `0.0`, `""`, `[]`, `{}` are
falsy, everything else truthy. -/
def pyTruthy : Json → Bool
  | .jnull => false
  | .jbool b => b
  | .jint n => n != 0
  | .jfloat m _ => m != 0
  | .jstr s => s != []
  | .jarr xs => !xs.isEmpty
  | .jobj fs => !fs.isEmpty

/-- Python `a or b`: `b` if `a` is falsy, else `a`. -/
def pyOr (a b : Json) : Json := if pyTruthy a then a else b

/-- `d.get(k)` on a dict, returning `None` when the key is absent.
JSON objects are modelled as association lists; `json.load` keeps the last
occurrence of a duplicated key, hence the lookup from the rear. -/
def dictGet (fs : List (Str × Json)) (k : Str) : Json :=
  match fs.reverse.lookup k with
  | some v => v
  | none => .jnull

/-- `isinstance(x, (int, float))` — in Python `bool` is a subclass of `int`,
so booleans pass this test (source line 29 and lines 116-117). -/
def isNum : Json → Bool
  | .jbool _ => true
  | .jint _ => true
  | .jfloat _ _ => true
  | _ => false

/-- Decimal digit character. -/
def digitChar (d : Nat) : Char := Char.ofNat (48 + d)

/-- Decimal digits of a natural number, with enough fuel (structural
recursion so that the kernel can evaluate it in witnesses). -/
def natReprAux : Nat → Nat → Str
  | 0, _ => []
  | fuel + 1, n =>
    if n < 10 then [digitChar n]
    else natReprAux fuel (n / 10) ++ [digitChar (n % 10)]

/-- Decimal representation of a natural number (Python `str` on a
non-negative `int`); `n` itself is always enough fuel. -/
def natRepr (n : Nat) : Str := natReprAux (n + 1) n

/-- Python `str` on an `int`. -/
def intRepr (n : Int) : Str :=
  if n < 0 then '-' :: natRepr (-n).toNat else natRepr n.toNat

/-- Drops trailing decimal zeros of the mantissa of `m / 10 ^ e`
(structural fuel on `e`). -/
def stripZeros : Int → Nat → Int × Nat
  | m, 0 => (m, 0)
  | m, e + 1 => if m % 10 == 0 then stripZeros (m / 10) e else (m, e + 1)

/-- Python `str` on a `float`, for the short decimal forms CPython's
shortest-round-trip repr produces on the script's inputs (the `e`-notation
of very large or very small magnitudes is not modelled; no claim uses it). -/
def floatRepr (m : Int) (e : Nat) : Str :=
  let p := stripZeros m e
  let sign : Str := if p.1 < 0 then ['-'] else []
  let a := p.1.natAbs
  if p.2 = 0 then sign ++ natRepr a ++ ['.', '0']
  else
    let frac := natRepr (a % 10 ^ p.2)
    sign ++ natRepr (a / 10 ^ p.2) ++ '.' ::
      (List.replicate (p.2 - frac.length) '0' ++ frac)

/-- Python `str(x)`.  The `list`/`dict` cases (Python `repr`) are modelled by
placeholders: the script only ever applies `str` to containers through
`esc`/`str(iid)` on malformed items, which no claim exercises. -/
def pyStr : Json → Str
  | .jnull => "None".data
  | .jbool true => "True".data
  | .jbool false => "False".data
  | .jint n => intRepr n
  | .jfloat m e => floatRepr m e
  | .jstr s => s
  | .jarr _ => "[...]".data
  | .jobj _ => "\x7b...\x7d".data

/-- One character of `html.escape(s, quote=True)` (source line 15).  The
sequential `str.replace` calls of `html.escape` act independently on each
character because no replacement string contains a character replaced by a
later step, so the per-character map is exact. -/
def escChar (c : Char) : Str :=
  if c = '&' then "&amp;".data
  else if c = '<' then "&lt;".data
  else if c = '>' then "&gt;".data
  else if c = quoteChar then "&quot;".data
  else if c = aposChar then "&#x27;".data
  else [c]

/-- `html.escape(s, quote=True)` on a string. -/
def escStr (s : Str) : Str := s.flatMap escChar

/-- `esc` (source lines 14-15): `xmlesc("" if s is None else str(s), quote=True)`. -/
def esc (v : Json) : Str :=
  match v with
  | .jnull => []
  | v => escStr (pyStr v)

/-- Numeric value of a Python number as a decimal `(mantissa, scale)` pair,
for `==` comparisons (`True == 1 == 1.0` in Python). -/
def numVal : Json → Option (Int × Nat)
  | .jbool b => some (if b then 1 else 0, 0)
  | .jint n => some (n, 0)
  | .jfloat m e => some (m, e)
  | _ => none

/-- Python `==` on the values that can occur inside a hashable dedup key:
numbers compare by value across `bool`/`int`/`float`, strings and `None`
structurally.  Containers are unhashable, so a key containing one never
reaches a comparison (the `in seen` test raises first); their case is
unreachable in the model. -/
def pyEq (a b : Json) : Bool :=
  match numVal a, numVal b with
  | some x, some y => x.1 * 10 ^ y.2 == y.1 * 10 ^ x.2
  | _, _ =>
    match a, b with
    | .jnull, .jnull => true
    | .jstr s, .jstr t => s == t
    | _, _ => false

/-- Dedup key (source lines 108-118): the tuple `("id", str(id))` or
`("geo", lat7, lon7, title)`.  The two tuple shapes differ in their first
component, hence the two constructors can never compare equal. -/
inductive DedupKey where
  | kid (s : Str)
  | kgeo (lat7 lon7 : Option Str) (title : Json)

/-- Python `==` on dedup-key tuples. -/
def keyEq : DedupKey → DedupKey → Bool
  | .kid s, .kid t => s == t
  | .kgeo a b t, .kgeo a' b' t' => a == a' && b == b' && pyEq t t'
  | _, _ => false

/-- Whether a dedup key is hashable: a `("geo", ..., title)` tuple whose
title is a `list` or `dict` raises `TypeError: unhashable type` as soon as
`k in seen` is evaluated. -/
def keyHashable : DedupKey → Bool
  | .kid _ => true
  | .kgeo _ _ (.jarr _) => false
  | .kgeo _ _ (.jobj _) => false
  | .kgeo _ _ _ => true

/-- `f"{x:.7f}"` on the decimal `m / 10 ^ e` (Python fixed-point formatting
with 7 decimal places; ties, which no short decimal hits at 7 places, are
modelled as rounding half up on the magnitude). -/
def format7 (m : Int) (e : Nat) : Str :=
  let sign : Str := if m < 0 then ['-'] else []
  let a := m.natAbs
  let n := if e ≤ 7 then a * 10 ^ (7 - e)
           else (a + 5 * 10 ^ (e - 8)) / 10 ^ (e - 7)
  let frac := natRepr (n % 10000000)
  sign ++ natRepr (n / 10000000) ++ '.' ::
    (List.replicate (7 - frac.length) '0' ++ frac)

/-- `f"{x:.7f}"` on a Python number (`bool` formats as `1`/`0`). -/
def format7val : Json → Str
  | .jbool b => format7 (if b then 1 else 0) 0
  | .jint n => format7 n 0
  | .jfloat m e => format7 m e
  | _ => []

/-- `item_dedup_key` (source lines 108-118).  `item.get`/`loc.get` on a
non-dict raise `AttributeError` (modelled as `.error`). -/
def item_dedup_key (item : Json) : Except Unit DedupKey :=
  match item with
  | .jobj fs =>
    match dictGet fs "id".data with
    | .jnull =>
      match pyOr (dictGet fs "location".data) (.jobj []) with
      | .jobj locF =>
        let lat := dictGet locF "lat".data
        let lon := dictGet locF "lng".data
        let title := pyOr (dictGet fs "title".data) (.jstr [])
        .ok (.kgeo (if isNum lat then some (format7val lat) else none)
                   (if isNum lon then some (format7val lon) else none)
                   title)
      | _ => .error ()
    | iid => .ok (.kid (pyStr iid))
  | _ => .error ()

/-- The dedup loop of `main` (source lines 145-154): first occurrence of a
key wins, later items with a seen key are skipped.  Membership in the `seen`
set raises `TypeError` on an unhashable key. -/
def dedupGo : List Json → List DedupKey → Except Unit (List Json)
  | [], _ => .ok []
  | it :: rest, seen =>
    match item_dedup_key it with
    | .error e => .error e
    | .ok k =>
      if keyHashable k then
        if seen.any (fun s => keyEq s k) then dedupGo rest seen
        else
          match dedupGo rest (k :: seen) with
          | .error e => .error e
          | .ok l => .ok (it :: l)
      else .error ()

/-- `if not args.no_dedup: ... ` (source lines 145-154). -/
def mergeItems (noDedup : Bool) (items : List Json) : Except Unit (List Json) :=
  if noDedup then .ok items else dedupGo items []

/-- Python `sep.join(parts)` where the parts must all be `str` (a non-`str`
part raises `TypeError`). -/
def strJoinSep (sep : Str) : List Str → Str
  | [] => []
  | s :: rest =>
    match rest with
    | [] => s
    | _ => s ++ sep ++ strJoinSep sep rest

/-- Checks that every joined part is a `str`, as `str.join` requires. -/
def allStrs : List Json → Option (List Str)
  | [] => some []
  | .jstr s :: rest => (allStrs rest).map (s :: ·)
  | _ => none

/-- `build_wpt` (source lines 25-73).  Returns `.ok none` when the item has
no numeric coordinates (the silent drop), `.ok (some w)` with the `<wpt>`
block text otherwise; `.error` models an uncaught Python exception
(`.get` on a non-dict, `"\n".join` over a non-`str` part). -/
def build_wpt (item : Json) : Except Unit (Option Str) :=
  match item with
  | .jobj fs =>
    match pyOr (dictGet fs "location".data) (.jobj []) with
    | .jobj locF =>
      let lat := dictGet locF "lat".data
      let lon := dictGet locF "lng".data
      if isNum lat && isNum lon then
        let title := pyOr (dictGet fs "title".data) (.jstr [])
        let href := pyOr (dictGet fs "href".data) (.jstr [])
        let marker := pyOr (dictGet fs "marker".data) (.jstr [])
        let addr := pyOr (dictGet locF "address".data) (.jstr [])
        let typ := pyOr (dictGet fs "type".data) (.jstr [])
        let status := pyOr (dictGet fs "status".data) (.jstr [])
        let site_id := pyOr (dictGet fs "siteId".data) (.jstr [])
        let iid := pyOr (dictGet fs "id".data) (.jstr [])
        let descParts : List Json :=
          (if pyTruthy addr then [addr] else []) ++
          (if pyTruthy marker then [.jstr ("marker: ".data ++ pyStr marker)] else [])
        match allStrs descParts with
        | none => .error ()
        | some parts =>
          let desc := strJoinSep "\n".data parts
          let link_block : Str :=
            if pyTruthy href then
              "\n    <link href=\"".data ++ esc href ++ "\"><text>".data ++
                esc (pyOr title (pyOr iid href)) ++ "</text></link>".data
            else []
          let ext_fields : List Str :=
            (if pyTruthy iid then
              ["<sa:id>".data ++ esc iid ++ "</sa:id>".data] else []) ++
            (if pyTruthy site_id then
              ["<sa:siteId>".data ++ esc site_id ++ "</sa:siteId>".data] else []) ++
            (if pyTruthy status then
              ["<sa:status>".data ++ esc status ++ "</sa:status>".data] else []) ++
            (if pyTruthy marker then
              ["<sa:marker>".data ++ esc marker ++ "</sa:marker>".data] else [])
          let extensions_block : Str :=
            if !ext_fields.isEmpty then
              "\n    <extensions>\n      ".data ++ ext_fields.flatten ++
                "\n    </extensions>".data
            else []
          let type_block : Str :=
            if pyTruthy typ then
              "\n    <type>".data ++ esc typ ++ "</type>".data
            else []
          .ok (some (
            "  <wpt lat=\"".data ++ pyStr lat ++ "\" lon=\"".data ++ pyStr lon ++
            "\">\n    <name>".data ++ esc (pyOr title (pyOr iid (.jstr "Untitled".data))) ++
            "</name>".data ++ link_block ++
            "\n    <desc>".data ++ esc (.jstr desc) ++ "</desc>".data ++
            type_block ++ extensions_block ++ "\n  </wpt>".data))
      else .ok none
    | _ => .error ()
  | _ => .error ()

/-- The list comprehension `[w for w in (build_wpt(x) for x in items) if w]`
(source line 91). -/
def wptsOf : List Json → Except Unit (List Str)
  | [] => .ok []
  | x :: rest =>
    match build_wpt x with
    | .error e => .error e
    | .ok w =>
      match wptsOf rest with
      | .error e => .error e
      | .ok ws => .ok (match w with | some s => s :: ws | none => ws)

/-- `build_gpx` (source lines 75-93), with the timestamp string a parameter.
`(meta_any or {}).get("generator")` raises on a truthy non-dict meta. -/
def build_gpx (items : List Json) (meta_any : Json) (now_iso : Str) :
    Except Unit Str :=
  match pyOr meta_any (.jobj []) with
  | .jobj metaF =>
    let gen := pyOr (dictGet metaF "generator".data) (.jstr "json2gpx".data)
    let head :=
      "<?xml version=\"1.0\" encoding=\"UTF-8\"?>\n<gpx version=\"1.1\"\n     creator=\"".data ++
      esc gen ++
      "\"\n     xmlns=\"http://www.topografix.com/GPX/1/1\"\n     xmlns:xsi=\"http://www.w3.org/2001/XMLSchema-instance\"\n     xmlns:sa=\"https://streetart.media/ns/1.0\"\n     xsi:schemaLocation=\"http://www.topografix.com/GPX/1/1\n                         http://www.topografix.com/GPX/1/1/gpx.xsd\">\n  <metadata>\n    <time>".data ++
      esc (.jstr now_iso) ++
      "</time>\n  </metadata>\n".data
    match wptsOf items with
    | .error e => .error e
    | .ok wpts => .ok (head ++ strJoinSep "\n".data wpts ++ "\n</gpx>\n".data)
  | _ => .error ()

/-- ASCII lowering, as `str.lower` acts on the URL schemes involved. -/
def lowerStr (s : Str) : Str := s.map Char.toLower

/-- `src.lower().startswith(("http://", "https://"))` (source lines 18, 99). -/
def isHttpUrl (s : Str) : Bool :=
  "http://".data.isPrefixOf (lowerStr s) || "https://".data.isPrefixOf (lowerStr s)

/-- `urlparse(u).path` for an `http(s)` URL: drop the scheme, then the
authority (up to the first `/`, `?` or `#`), then anything from the first
`?` or `#` on. -/
def urlparsePath (s : Str) : Str :=
  let rest :=
    if "https://".data.isPrefixOf (lowerStr s) then s.drop 8
    else if "http://".data.isPrefixOf (lowerStr s) then s.drop 7
    else s
  let afterNetloc := rest.dropWhile (fun c => !(c == '/' || c == '?' || c == '#'))
  afterNetloc.takeWhile (fun c => !(c == '?' || c == '#'))

/-- `pathlib.Path(s).name`: the text after the last `/` (paths are modelled
textually, without pathlib's normalisation of `.` segments or duplicate
slashes, which no claim input contains). -/
def pathName (s : Str) : Str :=
  (s.reverse.takeWhile (fun c => !(c == '/'))).reverse

/-- The directory part complementing `pathName`, including its trailing `/`. -/
def pathDirSlash (s : Str) : Str :=
  (s.reverse.dropWhile (fun c => !(c == '/'))).reverse

/-- `pathlib.Path(s).stem`: the final component without its last suffix; a
dot in first position (hidden file) or last position yields no suffix,
following CPython's `0 < i < len(name) - 1` rule. -/
def pathStem (s : Str) : Str :=
  let nm := pathName s
  let r := nm.reverse
  let afterDot := r.takeWhile (fun c => !(c == '.'))
  if afterDot.length = r.length then nm
  else if afterDot.length = 0 then nm
  else
    let stemR := r.drop (afterDot.length + 1)
    if stemR.isEmpty then nm else stemR.reverse

/-- `derive_output_path` (source lines 95-106), on path strings.
`if explicit:` (line 96) is a Python truthiness test, so both `None` and
the empty string fall through to the derived path.
`p.with_suffix(".gpx")` is the parent plus `stem + ".gpx"`, and
`p.with_name(p.stem + "_merged.gpx")` is the parent plus that name;
argparse guarantees at least one source. -/
def derive_output_path (sources : List Str) (explicit : Option Str) : Str :=
  if !(explicit.getD []).isEmpty then explicit.getD []
  else
    let first := sources.headD []
    if isHttpUrl first then
      let stem0 := pathStem (urlparsePath first)
      let stem := if stem0.isEmpty then "merged".data else stem0
      if 1 < sources.length then stem ++ "_merged.gpx".data
      else stem ++ ".gpx".data
    else
      if 1 < sources.length then
        pathDirSlash first ++ pathStem first ++ "_merged.gpx".data
      else
        pathDirSlash first ++ pathStem first ++ ".gpx".data

/-- The source-reading loop of `main` (source lines 129-143).  Each source
comes with the pre-determined outcome of `load_input`; the loop accumulates
items and the first non-`None` `@meta`.  The error value is the exit code
with the line printed to standard error (`data.get` on a non-dict document
is an uncaught `AttributeError`, which exits with code 1). -/
def loadLoop : List (Str × Except Str Json) → List Json → Json →
    Except (Nat × Str) (List Json × Json)
  | [], acc, meta => .ok (acc, meta)
  | (src, res) :: rest, acc, meta =>
    match res with
    | .error e => .error (1, "Error reading ".data ++ src ++ ": ".data ++ e)
    | .ok data =>
      match data with
      | .jobj fs =>
        match pyOr (dictGet fs "items".data) (.jarr []) with
        | .jarr xs =>
          let meta' := match meta with
            | .jnull => dictGet fs "@meta".data
            | m => m
          loadLoop rest (acc ++ xs) meta'
        | _ => .error (2, src ++ ": items[] missing or not a list".data)
      | _ => .error (1, "AttributeError".data)

/-- Scanner for occurrences of `"<wpt "`, with structural fuel. -/
def countWptAux : Nat → Str → Nat
  | 0, _ => 0
  | _ + 1, [] => 0
  | fuel + 1, c :: rest =>
    if "<wpt ".data.isPrefixOf (c :: rest) then 1 + countWptAux fuel (rest.drop 4)
    else countWptAux fuel rest

/-- Number of occurrences of `"<wpt "` counted the way Python
`gpx.count('<wpt ')` does: left to right, non-overlapping (source line 160);
the string's length is always enough fuel. -/
def countWpt (s : Str) : Nat := countWptAux s.length s

/-- Observable outcome of one run of `main`. -/
structure RunResult where
  exitCode : Nat
  stderrLines : List Str
  stdoutLines : List Str
  written : Option (Str × Str)

/-- `main` (source lines 120-160) as a function of the sources' load
outcomes, the `--no-dedup` flag, the `-o` option and the timestamp.  An
uncaught exception in dedup or serialization terminates the interpreter
with exit code 1 and a traceback on standard error; `Path.resolve()` is
modelled as the identity and the leading check-mark emoji of the success
line is omitted. -/
def mainRun (sources : List (Str × Except Str Json)) (noDedup : Bool)
    (output : Option Str) (now_iso : Str) : RunResult :=
  match loadLoop sources [] .jnull with
  | .error (code, msg) => ⟨code, [msg], [], none⟩
  | .ok (allItems, anyMeta) =>
    match mergeItems noDedup allItems with
    | .error _ => ⟨1, ["Traceback".data], [], none⟩
    | .ok items =>
      match build_gpx items anyMeta now_iso with
      | .error _ => ⟨1, ["Traceback".data], [], none⟩
      | .ok gpx =>
        let outPath := derive_output_path (sources.map Prod.fst) output
        ⟨0, [],
          ["Saved GPX to ".data ++ outPath ++ "  (waypoints: ".data ++
            natRepr (countWpt gpx) ++ ")".data],
          some (outPath, gpx)⟩

/-- Whether an item passes the numeric-coordinate check and yields a
waypoint. -/
def emitsWpt (it : Json) : Bool :=
  match build_wpt it with
  | .ok (some _) => true
  | _ => false

/-- The dedup key of an item, for stating properties of lists on which the
key computation succeeded. -/
def keyOf (it : Json) : DedupKey :=
  match item_dedup_key it with
  | .ok k => k
  | .error _ => .kid []

/-- A source that the loading loop passes through without aborting: it loads
as a dict whose `items` value resolves (after `or []`) to a list. -/
def srcOk : Str × Except Str Json → Bool
  | (_, .error _) => false
  | (_, .ok (.jobj fs)) =>
    match pyOr (dictGet fs "items".data) (.jarr []) with
    | .jarr _ => true
    | _ => false
  | (_, .ok _) => false

/-- Every `'<'` in the string is followed by at least four further
characters of the same string (so no `"<wpt "` match can extend past it). -/
def ltClosed : Str → Bool
  | [] => true
  | c :: rest => (if c = '<' then decide (4 ≤ rest.length) else true) && ltClosed rest

/-- The five entities `html.escape(..., quote=True)` can emit. -/
def ampEntities : List Str :=
  ["&amp;".data, "&lt;".data, "&gt;".data, "&quot;".data, '&' :: '#' :: 'x' :: '2' :: '7' :: [';']]

/-- Every `'&'` in the string starts one of the five escape entities. -/
def ampOk : Str → Bool
  | [] => true
  | c :: rest =>
    (if c = '&' then ampEntities.any (fun e => e.isPrefixOf (c :: rest)) else true)
      && ampOk rest

/-- Whether `pat` occurs as a contiguous substring of `hay` (Python's `in`
test on strings), used to state properties of the generated document. -/
def containsSub (hay pat : Str) : Bool :=
  hay.tails.any (fun t => pat.isPrefixOf t)

/-- The first non-`None` `@meta` value among the documents, in order — the
behaviour the amended claim C2 ascribes to the merge (stated from the
amended spec wording, for comparison with `loadLoop`). -/
def firstMeta : List (Str × Except Str Json) → Json
  | [] => .jnull
  | (_, .ok (.jobj fs)) :: rest =>
    match dictGet fs "@meta".data with
    | .jnull => firstMeta rest
    | m => m
  | _ :: _ => .jnull

/-- A string that is closed for `"<wpt "`-scanning and contains no
occurrence: concatenating such strings around the waypoint openers leaves
the count unchanged. -/
def wptFree (s : Str) : Prop := ltClosed s = true ∧ countWpt s = 0

/-- A concrete three-item list (one full waypoint, one item without
coordinates, one item with boolean coordinates) used as evaluation input in
witnesses. -/
def sampleItems : List Json :=
  [.jobj [("id".data, .jstr "1".data), ("title".data, .jstr "A".data),
     ("location".data, .jobj [("lat".data, .jint 1), ("lng".data, .jfloat 25 1)])],
   .jobj [("title".data, .jstr "B".data)],
   .jobj [("location".data, .jobj [("lat".data, .jbool true),
     ("lng".data, .jbool false)]), ("marker".data, .jstr "m".data)]]

/-- The GPX text generated from `sampleItems` (total function: the build
succeeds on this input). -/
def sampleGpx : Str :=
  match build_gpx sampleItems .jnull "T".data with
  | .ok g => g
  | .error _ => []

/-! ### Helper lemmas about the loading loop -/

theorem loadLoop_append (pre rest : List (Str × Except Str Json))
    (hpre : ∀ p ∈ pre, srcOk p = true) :
    ∀ acc meta, ∃ acc' meta',
      loadLoop (pre ++ rest) acc meta = loadLoop rest acc' meta' := by
  induction pre with
  | nil => exact fun acc meta => ⟨acc, meta, rfl⟩
  | cons p pre ih =>
    intro acc meta
    have hp : srcOk p = true := hpre p (List.mem_cons_self _ _)
    have hrest : ∀ q ∈ pre, srcOk q = true :=
      fun q hq => hpre q (List.mem_cons_of_mem _ hq)
    obtain ⟨src, res⟩ := p
    rcases res with e | data
    · unfold srcOk at hp; simp at hp
    · rcases data with _ | b | n | ⟨m, e⟩ | s | xs | fs
      case jobj =>
        simp only [srcOk] at hp
        rcases hx : pyOr (dictGet fs "items".data) (.jarr []) with _ | b | n | ⟨m, e⟩ | s | xs | gs <;>
          rw [hx] at hp <;> try simp at hp
        simp only [List.cons_append, loadLoop, hx]
        exact ih hrest _ _
      all_goals (unfold srcOk at hp; simp at hp)

theorem loadLoop_meta (srcs : List (Str × Except Str Json)) :
    ∀ m acc items meta, loadLoop srcs acc m = .ok (items, meta) →
      meta = (match m with | .jnull => firstMeta srcs | m' => m') := by
  induction srcs with
  | nil =>
    intro m acc items meta h
    simp only [loadLoop, Except.ok.injEq, Prod.mk.injEq] at h
    cases m <;> simp [firstMeta, ← h.2]
  | cons p rest ih =>
    intro m acc items meta h
    obtain ⟨src, res⟩ := p
    rcases res with e | data
    · simp [loadLoop] at h
    · rcases data with _ | b | n | ⟨mm, ee⟩ | s | xs | fs
      case jobj =>
        rcases hx : pyOr (dictGet fs "items".data) (.jarr []) with _ | b | n | ⟨mm, ee⟩ | s | xs | gs <;>
          simp only [loadLoop, hx] at h <;> try exact absurd h (by simp)
        have := ih _ _ _ _ h
        cases m with
        | jnull =>
          simp only at this
          rcases hm : dictGet fs "@meta".data with _ | b' | n' | ⟨m', e'⟩ | s' | xs' | fs' <;>
            rw [hm] at this <;> simp [firstMeta, hm, this]
        | _ => simpa [firstMeta] using this
      all_goals simp [loadLoop] at h

theorem mainRun_of_loadErr (srcs : List (Str × Except Str Json))
    (noDedup : Bool) (out : Option Str) (now : Str) (c : Nat) (msg : Str)
    (h : loadLoop srcs [] .jnull = .error (c, msg)) :
    mainRun srcs noDedup out now = ⟨c, [msg], [], none⟩ := by
  unfold mainRun
  rw [h]

/-! ### Claim C1 -/

/-- Claim C1 as stated is false: the input `{"foo": []}` (no `items` key)
does NOT yield exit code 2 — `data.get("items") or []` (source line 137)
turns a missing `items` into the empty list, which passes the
`isinstance(items, list)` check, so the run succeeds with exit code 0 and
writes an output file. -/
theorem C1_counterexample :
    (mainRun [("x.json".data, .ok (.jobj [("foo".data, .jarr [])]))]
      false none "T".data).exitCode = 0 ∧
    (mainRun [("x.json".data, .ok (.jobj [("foo".data, .jarr [])]))]
      false none "T".data).written.isSome = true :=
  ⟨rfl, rfl⟩

/-- Claim C1, amended: a run aborts with exit code 2 (one line on standard
error, no output file) exactly when a source's parsed JSON has an `items`
field whose value is truthy and not a list; a missing `items` key — and any
falsy value such as `null`, `0`, `""`, `[]` or `{}` — is replaced by the
empty list and the run proceeds, so the input `{"foo": []}` exits 0 and
writes a file. -/
theorem C1_theorem :
    (∀ pre src fs rest noDedup out now,
      (∀ p ∈ pre, srcOk p = true) →
      pyTruthy (dictGet fs "items".data) = true →
      (∀ xs, dictGet fs "items".data ≠ .jarr xs) →
      mainRun (pre ++ (src, .ok (.jobj fs)) :: rest) noDedup out now =
        ⟨2, [src ++ ": items[] missing or not a list".data], [], none⟩) ∧
    (mainRun [("x.json".data, .ok (.jobj [("foo".data, .jarr [])]))]
      false none "T".data).exitCode = 0 ∧
    (mainRun [("x.json".data, .ok (.jobj [("foo".data, .jarr [])]))]
      false none "T".data).written.isSome = true := by
  refine ⟨?_, rfl, rfl⟩
  intro pre src fs rest noDedup out now hpre ht hnl
  obtain ⟨acc', meta', heq⟩ :=
    loadLoop_append pre ((src, .ok (.jobj fs)) :: rest) hpre [] .jnull
  have hx : pyOr (dictGet fs "items".data) (.jarr []) = dictGet fs "items".data := by
    simp [pyOr, ht]
  have herr : loadLoop ((src, .ok (.jobj fs)) :: rest) acc' meta' =
      .error (2, src ++ ": items[] missing or not a list".data) := by
    rcases hv : dictGet fs "items".data with _ | b | n | ⟨m, e⟩ | s | xs | gs
    · rw [hv] at ht; exact absurd ht (by simp [pyTruthy])
    · simp only [loadLoop, hx.trans hv]
    · simp only [loadLoop, hx.trans hv]
    · simp only [loadLoop, hx.trans hv]
    · simp only [loadLoop, hx.trans hv]
    · exact absurd hv (hnl xs)
    · simp only [loadLoop, hx.trans hv]
  exact mainRun_of_loadErr _ _ _ _ _ _ (heq.trans herr)

/-- Witness for the amended C1 at a concrete source whose `items` is the
truthy non-list `"zzz"`. -/
theorem C1_witness :
    mainRun [("x.json".data, .ok (.jobj [("items".data, .jstr "zzz".data)]))]
      false none "T".data =
      ⟨2, ["x.json".data ++ ": items[] missing or not a list".data], [], none⟩ :=
  C1_theorem.1 [] "x.json".data [("items".data, .jstr "zzz".data)] [] false none
    "T".data (by intro p hp; cases hp) (by decide) (fun xs h => Json.noConfusion h)

/-! ### Claim C2 -/

/-- Claim C2 as stated is false: with a first document that has no `@meta`
and a second document whose `@meta` carries `generator = "X"`, the written
GPX document's `creator` attribute is `"X"` — the second source's `@meta`
influenced the output, because `if any_meta is None` (source line 141) runs
on every loop iteration, not only the first. -/
theorem C2_counterexample :
    (match (mainRun
        [("a.json".data, .ok (.jobj [("items".data, .jarr [])])),
         ("b.json".data, .ok (.jobj [("items".data, .jarr []),
            ("@meta".data, .jobj [("generator".data, .jstr "X".data)])]))]
        false none "T".data).written with
      | some (_, g) => containsSub g "creator=\"X\"".data
      | none => false) = true := by
  decide

/-- Claim C2, amended: the merged meta is the first non-`None` `@meta` in
document order — when the first document has one, it wins and every later
`@meta` is ignored, but when all earlier documents lack `@meta` (or have it
null), the first later document that has one supplies it, so the GPX
creator string can be influenced by documents after the first. -/
theorem C2_theorem :
    (∀ srcs items meta, loadLoop srcs [] .jnull = .ok (items, meta) →
      meta = firstMeta srcs) ∧
    (∀ src fs rest, dictGet fs "@meta".data ≠ .jnull →
      firstMeta ((src, .ok (.jobj fs)) :: rest) = dictGet fs "@meta".data) := by
  constructor
  · intro srcs items meta h
    simpa using loadLoop_meta srcs .jnull [] items meta h
  · intro src fs rest hm
    rcases hv : dictGet fs "@meta".data with _ | b | n | ⟨m, e⟩ | s | xs | gs
    · exact absurd hv hm
    all_goals simp only [firstMeta, hv]

/-- Witness for the amended C2: on the counterexample pair of documents the
merged meta is the second document's `@meta`, and with a first document that
does have `@meta` that one wins. -/
theorem C2_witness :
    (Json.jobj [("generator".data, Json.jstr "X".data)] =
      firstMeta [("a.json".data, .ok (.jobj [("items".data, .jarr [])])),
        ("b.json".data, .ok (.jobj [("items".data, .jarr []),
          ("@meta".data, .jobj [("generator".data, .jstr "X".data)])]))]) ∧
    (firstMeta [("a.json".data, .ok (.jobj [("@meta".data, .jstr "M".data)]))] =
      .jstr "M".data) :=
  ⟨C2_theorem.1 _ [] _ rfl,
    (C2_theorem.2 "a.json".data [("@meta".data, Json.jstr "M".data)] []
      (fun h => Json.noConfusion h)).trans rfl⟩

/-! ### Claim C7 -/

/-- Claim C7: when loading any source fails (every source before it having
loaded cleanly), the run aborts with exit code 1, a single standard-error
line naming the failing source, and no output file — the write happens only
after all sources load. -/
theorem C7_theorem (pre : List (Str × Except Str Json)) (src e : Str)
    (rest : List (Str × Except Str Json)) (noDedup : Bool) (out : Option Str)
    (now : Str) (hpre : ∀ p ∈ pre, srcOk p = true) :
    mainRun (pre ++ (src, .error e) :: rest) noDedup out now =
      ⟨1, ["Error reading ".data ++ src ++ ": ".data ++ e], [], none⟩ := by
  obtain ⟨acc', meta', heq⟩ :=
    loadLoop_append pre ((src, .error e) :: rest) hpre [] .jnull
  have herr : loadLoop ((src, .error e) :: rest) acc' meta' =
      .error (1, "Error reading ".data ++ src ++ ": ".data ++ e) := by
    simp only [loadLoop]
  exact mainRun_of_loadErr _ _ _ _ _ _ (heq.trans herr)

/-- Witness for C7 at a concrete failing source. -/
theorem C7_witness :
    mainRun [("bad.json".data, .error "boom".data)] false none "T".data =
      ⟨1, ["Error reading ".data ++ "bad.json".data ++ ": ".data ++ "boom".data],
        [], none⟩ :=
  C7_theorem [] "bad.json".data "boom".data [] false none "T".data
    (by intro p hp; cases hp)

/-! ### Claim C8 -/

/-- Claim C8 as stated is false at one point: `if explicit:` (source line
96) is a truthiness test, so the explicit output path `""` (from `-o ""`)
is NOT used verbatim — the program falls back to the derived path, here
`a.gpx`. -/
theorem C8_counterexample :
    derive_output_path ["a.json".data] (some []) = "a.gpx".data ∧
    "a.gpx".data ≠ ([] : Str) := by
  exact ⟨by decide, by decide⟩

/-- Claim C8, amended: a non-empty explicit `-o` path is used verbatim,
while the empty string is falsy and behaves as if no `-o` were given;
otherwise the output path is built from the first source's stem — kept in
its directory for a local path, with `"merged"` substituted for a URL whose
path stem is empty — with suffix `".gpx"` for exactly one source and
`"_merged.gpx"` for more than one; in particular `["a.json"]` yields
`a.gpx` and `["a.json", "b.json"]` yields `a_merged.gpx`. -/
theorem C8_theorem :
    (∀ sources e, e.isEmpty = false → derive_output_path sources (some e) = e) ∧
    (∀ sources, derive_output_path sources (some []) =
      derive_output_path sources none) ∧
    (∀ src, isHttpUrl src = false →
      derive_output_path [src] none =
        pathDirSlash src ++ pathStem src ++ ".gpx".data) ∧
    (∀ src r rs, isHttpUrl src = false →
      derive_output_path (src :: r :: rs) none =
        pathDirSlash src ++ pathStem src ++ "_merged.gpx".data) ∧
    (∀ url, isHttpUrl url = true →
      derive_output_path [url] none =
        (if (pathStem (urlparsePath url)).isEmpty then "merged".data
         else pathStem (urlparsePath url)) ++ ".gpx".data) ∧
    (∀ url r rs, isHttpUrl url = true →
      derive_output_path (url :: r :: rs) none =
        (if (pathStem (urlparsePath url)).isEmpty then "merged".data
         else pathStem (urlparsePath url)) ++ "_merged.gpx".data) ∧
    (derive_output_path ["a.json".data] none = "a.gpx".data ∧
     derive_output_path ["a.json".data, "b.json".data] none = "a_merged.gpx".data) := by
  refine ⟨?_, fun sources => rfl, ?_, ?_, ?_, ?_, by decide, by decide⟩
  · intro sources e he
    simp [derive_output_path, he]
  · intro src h
    simp [derive_output_path, h]
  · intro src r rs h
    simp [derive_output_path, h]
  · intro url h
    simp only [derive_output_path, Option.getD_none, List.isEmpty_nil,
      Bool.not_true, Bool.false_eq_true, if_false, h, if_true]
    split <;> simp_all [List.isEmpty_iff]
  · intro url r rs h
    simp only [derive_output_path, Option.getD_none, List.isEmpty_nil,
      Bool.not_true, Bool.false_eq_true, if_false, h, if_true]
    split <;> simp_all [List.isEmpty_iff]

/-- Witness for C8 at concrete sources: a non-empty explicit path, the
empty explicit path, a local file, two local files, and a stem-less URL. -/
theorem C8_witness :
    derive_output_path ["out.gpx".data, "b.json".data] (some "x.gpx".data) = "x.gpx".data ∧
    derive_output_path ["a.json".data] (some []) =
      derive_output_path ["a.json".data] none ∧
    derive_output_path ["dir/a.json".data] none =
      pathDirSlash "dir/a.json".data ++ pathStem "dir/a.json".data ++ ".gpx".data ∧
    derive_output_path ["a.json".data, "b.json".data] none =
      pathDirSlash "a.json".data ++ pathStem "a.json".data ++ "_merged.gpx".data ∧
    derive_output_path ["https://h".data] none =
      (if (pathStem (urlparsePath "https://h".data)).isEmpty then "merged".data
       else pathStem (urlparsePath "https://h".data)) ++ ".gpx".data :=
  ⟨C8_theorem.1 _ "x.gpx".data (by decide),
   C8_theorem.2.1 ["a.json".data],
   C8_theorem.2.2.1 "dir/a.json".data (by decide),
   C8_theorem.2.2.2.1 "a.json".data "b.json".data [] (by decide),
   C8_theorem.2.2.2.2.1 "https://h".data (by decide)⟩

/-! ### Claim C3 -/

/-- Claim C3: an item (a mapping) whose `location` resolves (after `or {}`)
to a mapping lacking a numeric `lat` or a numeric `lng` produces no `<wpt>`
element and no error or diagnostic — `build_wpt` returns `None` before
touching any other field, and the serializer's comprehension just skips it. -/
theorem C3_theorem :
    (∀ fs locF, pyOr (dictGet fs "location".data) (.jobj []) = .jobj locF →
      (isNum (dictGet locF "lat".data) && isNum (dictGet locF "lng".data)) = false →
      build_wpt (.jobj fs) = .ok none) ∧
    (∀ it rest, build_wpt it = .ok none → wptsOf (it :: rest) = wptsOf rest) := by
  constructor
  · intro fs locF hloc hnum
    simp only [build_wpt, hloc, hnum, Bool.false_eq_true, if_false]
  · intro it rest h
    simp only [wptsOf, h]
    rcases wptsOf rest with e | ws <;> rfl

/-- Witness for C3: an item whose location is present but has a string
`lat` is dropped silently, and skipped by the serializer. -/
theorem C3_witness :
    build_wpt (.jobj [("location".data,
      .jobj [("lat".data, .jstr "x".data), ("lng".data, .jint 5)])]) = .ok none ∧
    wptsOf [.jobj [("location".data,
      .jobj [("lat".data, .jstr "x".data), ("lng".data, .jint 5)])]] = wptsOf [] :=
  have h := C3_theorem.1 [("location".data,
      .jobj [("lat".data, .jstr "x".data), ("lng".data, .jint 5)])]
    [("lat".data, .jstr "x".data), ("lng".data, .jint 5)] rfl rfl
  ⟨h, C3_theorem.2 _ [] h⟩

/-! ### Claim C5 -/

/-- Claim C5: the dedup key is `("id", str(id))` when `id` is present
(non-`None`), else `("geo", lat to 7 decimal places or `None`, lng to 7
decimal places or `None`, title)`; consequently two items with no `id`, no
numeric location and the same title collapse to one under dedup even though
neither produces a waypoint. -/
theorem C5_theorem :
    (∀ fs v, dictGet fs "id".data = v → v ≠ .jnull →
      item_dedup_key (.jobj fs) = .ok (.kid (pyStr v))) ∧
    (∀ fs locF, dictGet fs "id".data = .jnull →
      pyOr (dictGet fs "location".data) (.jobj []) = .jobj locF →
      item_dedup_key (.jobj fs) = .ok (.kgeo
        (if isNum (dictGet locF "lat".data)
          then some (format7val (dictGet locF "lat".data)) else none)
        (if isNum (dictGet locF "lng".data)
          then some (format7val (dictGet locF "lng".data)) else none)
        (pyOr (dictGet fs "title".data) (.jstr [])))) ∧
    (dedupGo
      [.jobj [("title".data, .jstr "T".data), ("status".data, .jstr "a".data)],
       .jobj [("title".data, .jstr "T".data), ("status".data, .jstr "b".data)]] [] =
      .ok [.jobj [("title".data, .jstr "T".data), ("status".data, .jstr "a".data)]] ∧
     build_wpt (.jobj [("title".data, .jstr "T".data),
       ("status".data, .jstr "a".data)]) = .ok none ∧
     build_wpt (.jobj [("title".data, .jstr "T".data),
       ("status".data, .jstr "b".data)]) = .ok none) := by
  refine ⟨?_, ?_, rfl, rfl, rfl⟩
  · intro fs v hv hnn
    rcases v with _ | b | n | ⟨m, e⟩ | s | xs | gs
    · exact absurd rfl hnn
    all_goals simp only [item_dedup_key, hv]
  · intro fs locF hid hloc
    simp only [item_dedup_key, hid, hloc]

/-- Witness for C5: an item with `id = "9"` gets an id-key; an item with a
numeric `lat` and no `lng` gets a geo-key with one formatted coordinate. -/
theorem C5_witness :
    item_dedup_key (.jobj [("id".data, .jstr "9".data)]) =
      .ok (.kid (pyStr (.jstr "9".data))) ∧
    item_dedup_key (.jobj [("location".data,
        .jobj [("lat".data, .jfloat 4885 2)])]) =
      .ok (.kgeo
        (if isNum (dictGet [("lat".data, Json.jfloat 4885 2)] "lat".data)
          then some (format7val (dictGet [("lat".data, Json.jfloat 4885 2)] "lat".data))
          else none)
        (if isNum (dictGet [("lat".data, Json.jfloat 4885 2)] "lng".data)
          then some (format7val (dictGet [("lat".data, Json.jfloat 4885 2)] "lng".data))
          else none)
        (pyOr (dictGet [("location".data,
            Json.jobj [("lat".data, Json.jfloat 4885 2)])] "title".data) (.jstr []))) :=
  ⟨C5_theorem.1 [("id".data, .jstr "9".data)] (.jstr "9".data) rfl
      (fun h => Json.noConfusion h),
   C5_theorem.2.1 [("location".data, .jobj [("lat".data, .jfloat 4885 2)])]
      [("lat".data, .jfloat 4885 2)] rfl rfl⟩

/-! ### Claim C9 -/

/-- Claim C9: boolean `lat`/`lng` pass the `isinstance(x, (int, float))`
check (Python `bool` is a subclass of `int`), so such an item — with its
other fields well formed, here an address that is a string or absent —
yields a `<wpt>` whose lat/lon attribute text is `"True"`/`"False"`. -/
theorem C9_theorem :
    ∀ fs locF b1 b2 s,
      pyOr (dictGet fs "location".data) (.jobj []) = .jobj locF →
      dictGet locF "lat".data = .jbool b1 →
      dictGet locF "lng".data = .jbool b2 →
      pyOr (dictGet locF "address".data) (.jstr []) = .jstr s →
      ∃ w, build_wpt (.jobj fs) = .ok (some w) ∧
        ("  <wpt lat=\"".data ++ pyStr (.jbool b1) ++ "\" lon=\"".data ++
          pyStr (.jbool b2) ++ "\">".data) <+: w ∧
        pyStr (.jbool true) = "True".data ∧ pyStr (.jbool false) = "False".data := by
  intro fs locF b1 b2 s hloc hlat hlng haddr
  simp only [build_wpt, hloc, hlat, hlng, haddr, isNum, Bool.and_self, if_true]
  rcases hp : allStrs ((if pyTruthy (.jstr s) then [Json.jstr s] else []) ++
      (if pyTruthy (pyOr (dictGet fs "marker".data) (.jstr [])) then
        [Json.jstr ("marker: ".data ++ pyStr (pyOr (dictGet fs "marker".data) (.jstr [])))]
       else [])) with _ | parts
  · exfalso
    revert hp
    split <;> split <;> simp [allStrs]
  · refine ⟨_, rfl, ?_, rfl, rfl⟩
    have hsplit : ("\">\n    <name>".data : Str) = "\">".data ++ "\n    <name>".data := rfl
    simp only [hsplit, List.append_assoc]
    rw [List.prefix_append_right_inj, List.prefix_append_right_inj,
      List.prefix_append_right_inj, List.prefix_append_right_inj]
    exact List.prefix_append _ _

/-- Witness for C9 at a concrete item with `lat = true`, `lng = false`. -/
theorem C9_witness :
    ∃ w, build_wpt (.jobj [("location".data,
        .jobj [("lat".data, .jbool true), ("lng".data, .jbool false)])]) =
          .ok (some w) ∧
      ("  <wpt lat=\"".data ++ pyStr (.jbool true) ++ "\" lon=\"".data ++
        pyStr (.jbool false) ++ "\">".data) <+: w ∧
      pyStr (.jbool true) = "True".data ∧ pyStr (.jbool false) = "False".data :=
  C9_theorem [("location".data, .jobj [("lat".data, .jbool true),
      ("lng".data, .jbool false)])]
    [("lat".data, .jbool true), ("lng".data, .jbool false)] true false []
    rfl rfl rfl rfl

/-! ### Claim C6 -/

theorem escChar_safe (c : Char) :
    ∀ c' ∈ escChar c, ¬(c' = '<' ∨ c' = '>' ∨ c' = quoteChar) := by
  intro c' h
  unfold escChar at h
  rcases eq_or_ne c '&' with rfl | h1
  · simp at h
    rcases h with rfl | rfl | rfl | rfl | rfl <;> decide
  rw [if_neg h1] at h
  rcases eq_or_ne c '<' with rfl | h2
  · simp at h
    rcases h with rfl | rfl | rfl | rfl <;> decide
  rw [if_neg h2] at h
  rcases eq_or_ne c '>' with rfl | h3
  · simp at h
    rcases h with rfl | rfl | rfl | rfl <;> decide
  rw [if_neg h3] at h
  rcases eq_or_ne c quoteChar with rfl | h4
  · simp at h
    rcases h with rfl | rfl | rfl | rfl | rfl | rfl <;> decide
  rw [if_neg h4] at h
  rcases eq_or_ne c aposChar with rfl | h5
  · simp at h
    rcases h with rfl | rfl | rfl | rfl | rfl | rfl <;> decide
  rw [if_neg h5] at h
  simp at h
  subst h
  rintro (rfl | rfl | rfl)
  · exact h2 rfl
  · exact h3 rfl
  · exact h4 rfl

theorem ampOk_escChar (c : Char) (t : Str) (h : ampOk t = true) :
    ampOk (escChar c ++ t) = true := by
  rcases eq_or_ne c '&' with rfl | h1
  · simp [escChar, ampOk, ampEntities, List.isPrefixOf, h]
  rcases eq_or_ne c '<' with rfl | h2
  · simp [escChar, ampOk, ampEntities, List.isPrefixOf, h]
  rcases eq_or_ne c '>' with rfl | h3
  · simp [escChar, ampOk, ampEntities, List.isPrefixOf, h]
  rcases eq_or_ne c quoteChar with rfl | h4
  · simp [escChar, ampOk, ampEntities, List.isPrefixOf, h]
  rcases eq_or_ne c aposChar with rfl | h5
  · simp [escChar, ampOk, ampEntities, List.isPrefixOf, h]
  simp [escChar, h1, h2, h3, h4, h5, ampOk, h]

theorem escStr_safe (s : Str) :
    ∀ c ∈ escStr s, ¬(c = '<' ∨ c = '>' ∨ c = quoteChar) := by
  intro c h
  rw [escStr, List.mem_flatMap] at h
  obtain ⟨a, _, ha⟩ := h
  exact escChar_safe a c ha

theorem escStr_ampOk (s : Str) : ampOk (escStr s) = true := by
  induction s with
  | nil => rfl
  | cons c s ih => exact ampOk_escChar c (escStr s) ih

/-- Claim C6: every character the escaper emits is safe for XML text and
attribute content — the output never contains a raw `<`, `>` or `"`, and
every `&` in it starts one of the five escape entities; `None`/missing
fields render as the empty string, never as the text `"None"`; and a title
`"<A & B>"` yields a `<name>` containing `&lt;A &amp; B&gt;`. -/
theorem C6_theorem :
    (∀ v c, c ∈ esc v → ¬(c = '<' ∨ c = '>' ∨ c = quoteChar)) ∧
    (∀ v, ampOk (esc v) = true) ∧
    escStr "<A & B>".data = "&lt;A &amp; B&gt;".data ∧
    esc .jnull = [] ∧
    (match build_wpt (.jobj [("title".data, .jstr "<A & B>".data),
        ("location".data, .jobj [("lat".data, .jint 1), ("lng".data, .jint 2)])]) with
      | .ok (some w) => containsSub w "<name>&lt;A &amp; B&gt;</name>".data
      | _ => false) = true := by
  refine ⟨?_, ?_, rfl, rfl, by decide⟩
  · intro v c h
    cases v with
    | jnull => cases h
    | jbool b => exact escStr_safe _ c h
    | jint n => exact escStr_safe _ c h
    | jfloat m e => exact escStr_safe _ c h
    | jstr s => exact escStr_safe _ c h
    | jarr xs => exact escStr_safe _ c h
    | jobj fs => exact escStr_safe _ c h
  · intro v
    cases v with
    | jnull => rfl
    | jbool b => exact escStr_ampOk _
    | jint n => exact escStr_ampOk _
    | jfloat m e => exact escStr_ampOk _
    | jstr s => exact escStr_ampOk _
    | jarr xs => exact escStr_ampOk _
    | jobj fs => exact escStr_ampOk _

/-- Witness for C6 at a concrete escaped character. -/
theorem C6_witness :
    ¬(('a' : Char) = '<' ∨ ('a' : Char) = '>' ∨ ('a' : Char) = quoteChar) :=
  C6_theorem.1 (.jstr "a".data) 'a' (by decide)

/-! ### Claim C4 -/

theorem keyOf_eq {it : Json} {k : DedupKey} (h : item_dedup_key it = .ok k) :
    keyOf it = k := by simp [keyOf, h]

theorem dedupGo_key_ok :
    ∀ items seen res, dedupGo items seen = .ok res →
      ∀ it ∈ res, item_dedup_key it = .ok (keyOf it) ∧
        seen.any (fun s => keyEq s (keyOf it)) = false := by
  intro items
  induction items with
  | nil =>
    intro seen res h it hit
    simp only [dedupGo, Except.ok.injEq] at h
    subst h; cases hit
  | cons x rest ih =>
    intro seen res h it hit
    rcases hk : item_dedup_key x with e | k <;> simp only [dedupGo, hk] at h
    · cases h
    by_cases hh : keyHashable k
    · rw [if_pos hh] at h
      by_cases hs : seen.any (fun s => keyEq s k) = true
      · rw [if_pos hs] at h
        exact ih seen res h it hit
      · rw [if_neg hs] at h
        rcases hl : dedupGo rest (k :: seen) with e | l <;> rw [hl] at h
        · cases h
        · injection h with h; subst h
          rcases List.mem_cons.mp hit with rfl | hit
          · exact ⟨by rw [keyOf_eq hk]; exact hk,
              by rw [keyOf_eq hk]; exact Bool.eq_false_iff.mpr hs⟩
          · have := ih (k :: seen) l hl it hit
            refine ⟨this.1, ?_⟩
            have h2 := this.2
            rw [List.any_cons, Bool.or_eq_false_iff] at h2
            exact h2.2
    · rw [if_neg hh] at h; cases h

theorem dedupGo_sublist :
    ∀ items seen res, dedupGo items seen = .ok res → res.Sublist items := by
  intro items
  induction items with
  | nil =>
    intro seen res h
    simp only [dedupGo, Except.ok.injEq] at h
    subst h; exact List.Sublist.refl []
  | cons x rest ih =>
    intro seen res h
    rcases hk : item_dedup_key x with e | k <;> simp only [dedupGo, hk] at h
    · cases h
    by_cases hh : keyHashable k
    · rw [if_pos hh] at h
      by_cases hs : seen.any (fun s => keyEq s k) = true
      · rw [if_pos hs] at h
        exact (ih seen res h).cons x
      · rw [if_neg hs] at h
        rcases hl : dedupGo rest (k :: seen) with e | l <;> rw [hl] at h
        · cases h
        · injection h with h; subst h
          exact (ih _ l hl).cons₂ x
    · rw [if_neg hh] at h; cases h

theorem dedupGo_pairwise :
    ∀ items seen res, dedupGo items seen = .ok res →
      res.Pairwise (fun a b => keyEq (keyOf a) (keyOf b) = false) := by
  intro items
  induction items with
  | nil =>
    intro seen res h
    simp only [dedupGo, Except.ok.injEq] at h
    subst h; exact List.Pairwise.nil
  | cons x rest ih =>
    intro seen res h
    rcases hk : item_dedup_key x with e | k <;> simp only [dedupGo, hk] at h
    · cases h
    by_cases hh : keyHashable k
    · rw [if_pos hh] at h
      by_cases hs : seen.any (fun s => keyEq s k) = true
      · rw [if_pos hs] at h
        exact ih seen res h
      · rw [if_neg hs] at h
        rcases hl : dedupGo rest (k :: seen) with e | l <;> rw [hl] at h
        · cases h
        · injection h with h; subst h
          refine List.Pairwise.cons ?_ (ih _ l hl)
          intro b hb
          have hmem := (dedupGo_key_ok rest (k :: seen) l hl b hb).2
          rw [List.any_cons, Bool.or_eq_false_iff] at hmem
          rw [keyOf_eq hk]
          exact hmem.1
    · rw [if_neg hh] at h; cases h

theorem dedupGo_first :
    ∀ pre x post seen res,
      dedupGo (pre ++ x :: post) seen = .ok res →
      seen.any (fun s => keyEq s (keyOf x)) = false →
      (∀ p ∈ pre, keyEq (keyOf p) (keyOf x) = false) →
      x ∈ res := by
  intro pre
  induction pre with
  | nil =>
    intro x post seen res h hs hpre
    rcases hk : item_dedup_key x with e | k <;>
      simp only [List.nil_append, dedupGo, hk] at h
    · cases h
    rw [keyOf_eq hk] at hs
    by_cases hh : keyHashable k
    · rw [if_pos hh, hs] at h
      simp only [Bool.false_eq_true, if_false] at h
      rcases hl : dedupGo post (k :: seen) with e | l <;> rw [hl] at h
      · cases h
      · injection h with h; subst h
        exact List.mem_cons_self x l
    · rw [if_neg hh] at h; cases h
  | cons p pre ih =>
    intro x post seen res h hs hpre
    have hpx : keyEq (keyOf p) (keyOf x) = false := hpre p (List.mem_cons_self _ _)
    have hpre' : ∀ q ∈ pre, keyEq (keyOf q) (keyOf x) = false :=
      fun q hq => hpre q (List.mem_cons_of_mem _ hq)
    rcases hk : item_dedup_key p with e | k <;>
      simp only [List.cons_append, dedupGo, hk, List.append_eq] at h
    · cases h
    by_cases hh : keyHashable k
    · rw [if_pos hh] at h
      by_cases hseen : seen.any (fun s => keyEq s k) = true
      · rw [if_pos hseen] at h
        exact ih x post seen res h hs hpre'
      · rw [if_neg hseen] at h
        rcases hl : dedupGo (pre ++ x :: post) (k :: seen) with e | l <;> rw [hl] at h
        · cases h
        · injection h with h; subst h
          have hseen' : (k :: seen).any (fun s => keyEq s (keyOf x)) = false := by
            rw [List.any_cons, Bool.or_eq_false_iff]
            exact ⟨by rw [← keyOf_eq hk]; exact hpx, hs⟩
          exact List.mem_cons_of_mem p (ih x post (k :: seen) l hl hseen' hpre')
    · rw [if_neg hh] at h; cases h

/-- Claim C4: with dedup enabled the merger keeps a subsequence of the
concatenated items (relative order preserved) whose keys are pairwise
distinct; the first item whose key differs from every earlier item's key is
always kept; for two items with the same (non-`None`) `id` only the first
survives; and with `--no-dedup` the item list passes through unchanged. -/
theorem C4_theorem :
    (∀ items res, dedupGo items [] = .ok res →
      res.Sublist items ∧
      res.Pairwise (fun a b => keyEq (keyOf a) (keyOf b) = false)) ∧
    (∀ pre x post res, dedupGo (pre ++ x :: post) [] = .ok res →
      (∀ p ∈ pre, keyEq (keyOf p) (keyOf x) = false) → x ∈ res) ∧
    (∀ x y s, item_dedup_key x = .ok (.kid s) → item_dedup_key y = .ok (.kid s) →
      dedupGo [x, y] [] = .ok [x]) ∧
    (∀ items, mergeItems true items = .ok items) := by
  refine ⟨fun items res h =>
      ⟨dedupGo_sublist items [] res h, dedupGo_pairwise items [] res h⟩,
    fun pre x post res h hpre => dedupGo_first pre x post [] res h rfl hpre,
    ?_, fun items => rfl⟩
  intro x y s hx hy
  simp [dedupGo, hx, hy, keyHashable, keyEq, List.any_cons]

/-- Witness for C4 at two concrete items sharing `id = "1"`. -/
theorem C4_witness :
    dedupGo [Json.jobj [("id".data, Json.jstr "1".data), ("status".data, Json.jstr "a".data)],
             Json.jobj [("id".data, Json.jstr "1".data), ("status".data, Json.jstr "b".data)]] [] =
      .ok [Json.jobj [("id".data, Json.jstr "1".data), ("status".data, Json.jstr "a".data)]] ∧
    mergeItems true
        [Json.jobj [("id".data, Json.jstr "1".data), ("status".data, Json.jstr "a".data)],
         Json.jobj [("id".data, Json.jstr "1".data), ("status".data, Json.jstr "b".data)]] =
      .ok [Json.jobj [("id".data, Json.jstr "1".data), ("status".data, Json.jstr "a".data)],
           Json.jobj [("id".data, Json.jstr "1".data), ("status".data, Json.jstr "b".data)]] ∧
    Json.jobj [("id".data, Json.jstr "1".data), ("status".data, Json.jstr "a".data)] ∈
      [Json.jobj [("id".data, Json.jstr "1".data), ("status".data, Json.jstr "a".data)]] :=
  ⟨C4_theorem.2.2.1 _ _ "1".data rfl rfl,
   C4_theorem.2.2.2 _,
   C4_theorem.2.1 [] _
     [Json.jobj [("id".data, Json.jstr "1".data), ("status".data, Json.jstr "b".data)]] _
     (C4_theorem.2.2.1 _ _ "1".data rfl rfl) (fun p hp => absurd hp (List.not_mem_nil p))⟩

/-! ### Claim C10: counting machinery -/

theorem countWptAux_nil : ∀ fuel, countWptAux fuel [] = 0 := by
  intro fuel; cases fuel <;> rfl

theorem countWptAux_fuel :
    ∀ fuel1 fuel2 s, s.length ≤ fuel1 → s.length ≤ fuel2 →
      countWptAux fuel1 s = countWptAux fuel2 s := by
  intro fuel1
  induction fuel1 with
  | zero =>
    intro fuel2 s hs _
    have : s = [] := List.eq_nil_of_length_eq_zero (Nat.le_zero.mp hs)
    subst this; rw [countWptAux_nil, countWptAux_nil]
  | succ f1 ih =>
    intro fuel2 s h1 h2
    match s with
    | [] => rw [countWptAux_nil, countWptAux_nil]
    | c :: rest =>
      match fuel2 with
      | 0 => exact absurd h2 (by simp)
      | f2 + 1 =>
        simp only [countWptAux]
        simp only [List.length_cons] at h1 h2
        by_cases hm : "<wpt ".data.isPrefixOf (c :: rest) = true
        · rw [if_pos hm, if_pos hm]
          have ha : (rest.drop 4).length ≤ f1 := by
            simp only [List.length_drop]; omega
          have hb : (rest.drop 4).length ≤ f2 := by
            simp only [List.length_drop]; omega
          rw [ih f2 (rest.drop 4) ha hb]
        · rw [if_neg hm, if_neg hm]
          exact ih f2 rest (by omega) (by omega)

theorem countWpt_nil : countWpt [] = 0 := rfl

theorem countWpt_cons (c : Char) (rest : Str) :
    countWpt (c :: rest) =
      if "<wpt ".data.isPrefixOf (c :: rest) then 1 + countWpt (rest.drop 4)
      else countWpt rest := by
  show countWptAux (rest.length + 1) (c :: rest) = _
  simp only [countWptAux]
  by_cases hm : "<wpt ".data.isPrefixOf (c :: rest) = true
  · rw [if_pos hm, if_pos hm,
      countWptAux_fuel rest.length (rest.drop 4).length (rest.drop 4)
        (by simp only [List.length_drop]; omega) le_rfl]
    rfl
  · rw [if_neg hm, if_neg hm]
    rfl

theorem countWpt_eq_zero_of_no_lt (s : Str) (h : '<' ∉ s) : countWpt s = 0 := by
  induction s with
  | nil => rfl
  | cons c rest ih =>
    have hc : c ≠ '<' := fun hc => h (hc ▸ List.mem_cons_self _ _)
    have hb : (('<' : Char) == c) = false := beq_eq_false_iff_ne.mpr (Ne.symm hc)
    have hm : "<wpt ".data.isPrefixOf (c :: rest) = false := by
      show (('<' :: "wpt ".data).isPrefixOf (c :: rest)) = false
      rw [List.isPrefixOf_cons₂, hb, Bool.false_and]
    rw [countWpt_cons, hm]
    simp only [Bool.false_eq_true, if_false]
    exact ih (fun hr => h (List.mem_cons_of_mem _ hr))

theorem ltClosed_of_no_lt (s : Str) (h : '<' ∉ s) : ltClosed s = true := by
  induction s with
  | nil => rfl
  | cons c rest ih =>
    have hc : c ≠ '<' := fun hc => h (hc ▸ List.mem_cons_self _ _)
    simp only [ltClosed, if_neg hc, Bool.true_and]
    exact ih (fun hr => h (List.mem_cons_of_mem _ hr))

theorem ltClosed_tail {c : Char} {rest : Str} (h : ltClosed (c :: rest) = true) :
    ltClosed rest = true := by
  simp only [ltClosed, Bool.and_eq_true] at h
  exact h.2

theorem ltClosed_head {c : Char} {rest : Str} (h : ltClosed (c :: rest) = true)
    (hc : c = '<') : 4 ≤ rest.length := by
  simp only [ltClosed, Bool.and_eq_true] at h
  have h1 := h.1
  rw [if_pos hc] at h1
  exact of_decide_eq_true h1

theorem ltClosed_append {a b : Str} (ha : ltClosed a = true)
    (hb : ltClosed b = true) : ltClosed (a ++ b) = true := by
  induction a with
  | nil => exact hb
  | cons c rest ih =>
    simp only [List.cons_append, ltClosed, Bool.and_eq_true]
    refine ⟨?_, ih (ltClosed_tail ha)⟩
    by_cases hc : c = '<'
    · rw [if_pos hc]
      have h4 := ltClosed_head ha hc
      refine decide_eq_true ?_
      rw [show rest.append b = rest ++ b from rfl, List.length_append]
      omega
    · rw [if_neg hc]

theorem ltClosed_drop (k : Nat) : ∀ a : Str, ltClosed a = true →
    ltClosed (a.drop k) = true := by
  induction k with
  | zero => intro a h; rw [List.drop_zero]; exact h
  | succ k ih =>
    intro a h
    match a with
    | [] => rw [List.drop_nil]; exact h
    | c :: rest =>
      rw [List.drop_succ_cons]
      exact ih rest (ltClosed_tail h)

theorem isPrefixOf_append_eq (p a b : Str) (h : p.length ≤ a.length) :
    p.isPrefixOf (a ++ b) = p.isPrefixOf a := by
  have hiff : (p.isPrefixOf (a ++ b) = true) ↔ (p.isPrefixOf a = true) := by
    rw [List.isPrefixOf_iff_prefix, List.isPrefixOf_iff_prefix]
    constructor
    · intro hp
      rw [List.prefix_iff_eq_take] at hp ⊢
      rwa [List.take_append_of_le_length h] at hp
    · intro hp
      exact hp.trans (List.prefix_append a b)
  cases h1 : p.isPrefixOf (a ++ b) <;> cases h2 : p.isPrefixOf a <;> simp_all

theorem countWpt_append :
    ∀ a b : Str, ltClosed a = true → countWpt (a ++ b) = countWpt a + countWpt b := by
  suffices h : ∀ n (a b : Str), a.length ≤ n → ltClosed a = true →
      countWpt (a ++ b) = countWpt a + countWpt b from
    fun a b ha => h a.length a b le_rfl ha
  intro n
  induction n with
  | zero =>
    intro a b ha _
    rw [List.eq_nil_of_length_eq_zero (Nat.le_zero.mp ha)]
    simp [countWpt_nil]
  | succ n ih =>
    intro a b ha hcl
    match a with
    | [] => simp [countWpt_nil]
    | c :: rest =>
      simp only [List.length_cons] at ha
      rw [List.cons_append, countWpt_cons, countWpt_cons c rest]
      by_cases hm : "<wpt ".data.isPrefixOf (c :: (rest ++ b)) = true
      · have hc' : c = '<' := by
          have hx := hm
          rw [show ("<wpt ".data : Str) = '<' :: "wpt ".data from rfl,
            List.isPrefixOf_cons₂, Bool.and_eq_true] at hx
          exact (beq_iff_eq.mp hx.1).symm
        have h4 : 4 ≤ rest.length := ltClosed_head hcl hc'
        have hm' : "<wpt ".data.isPrefixOf (c :: rest) = true := by
          have heq := isPrefixOf_append_eq "<wpt ".data (c :: rest) b
            (by
              have h5 : ("<wpt ".data : Str).length = 5 := rfl
              simp only [List.length_cons, h5]; omega)
          rw [List.cons_append] at heq
          rw [← heq]; exact hm
        rw [if_pos hm, if_pos hm', List.drop_append_of_le_length h4]
        rw [ih (rest.drop 4) b (by simp only [List.length_drop]; omega)
          (ltClosed_drop 4 rest (ltClosed_tail hcl))]
        omega
      · have hm' : "<wpt ".data.isPrefixOf (c :: rest) = false := by
          cases hmm : "<wpt ".data.isPrefixOf (c :: rest)
          · rfl
          · exfalso
            apply hm
            rw [List.isPrefixOf_iff_prefix] at hmm ⊢
            refine hmm.trans ?_
            rw [← List.cons_append]
            exact List.prefix_append _ _
        rw [if_neg hm, if_neg (by rw [hm']; simp)]
        exact ih rest b (by omega) (ltClosed_tail hcl)

theorem wptFree_append {a b : Str} (ha : wptFree a) (hb : wptFree b) :
    wptFree (a ++ b) := by
  refine ⟨ltClosed_append ha.1 hb.1, ?_⟩
  rw [countWpt_append a b ha.1, ha.2, hb.2]

theorem wptFree_of_no_lt {s : Str} (h : '<' ∉ s) : wptFree s :=
  ⟨ltClosed_of_no_lt s h, countWpt_eq_zero_of_no_lt s h⟩

theorem wptFree_nil : wptFree [] := ⟨rfl, rfl⟩

theorem no_lt_append {a b : Str} (ha : '<' ∉ a) (hb : '<' ∉ b) : '<' ∉ a ++ b := by
  intro h
  rcases List.mem_append.mp h with h | h
  · exact ha h
  · exact hb h

theorem esc_no_lt (v : Json) : '<' ∉ esc v := by
  intro h
  cases v with
  | jnull => cases h
  | jbool b => exact escStr_safe _ '<' h (Or.inl rfl)
  | jint n => exact escStr_safe _ '<' h (Or.inl rfl)
  | jfloat m e => exact escStr_safe _ '<' h (Or.inl rfl)
  | jstr s => exact escStr_safe _ '<' h (Or.inl rfl)
  | jarr xs => exact escStr_safe _ '<' h (Or.inl rfl)
  | jobj fs => exact escStr_safe _ '<' h (Or.inl rfl)

theorem wptFree_esc (v : Json) : wptFree (esc v) := wptFree_of_no_lt (esc_no_lt v)

theorem natReprAux_digits :
    ∀ fuel n c, c ∈ natReprAux fuel n → ∃ d, d < 10 ∧ c = digitChar d := by
  intro fuel
  induction fuel with
  | zero => intro n c h; cases h
  | succ fuel ih =>
    intro n c h
    simp only [natReprAux] at h
    by_cases hn : n < 10
    · rw [if_pos hn] at h
      simp only [List.mem_singleton] at h
      exact ⟨n, hn, h⟩
    · rw [if_neg hn] at h
      rcases List.mem_append.mp h with h | h
      · exact ih _ c h
      · simp only [List.mem_singleton] at h
        exact ⟨n % 10, Nat.mod_lt _ (by omega), h⟩

theorem digitChar_ne_lt {d : Nat} (hd : d < 10) : digitChar d ≠ '<' := by
  interval_cases d <;> decide

theorem natRepr_no_lt (n : Nat) : '<' ∉ natRepr n := by
  intro h
  obtain ⟨d, hd, hc⟩ := natReprAux_digits (n + 1) n '<' h
  exact digitChar_ne_lt hd hc.symm

theorem pyStr_num_no_lt {v : Json} (h : isNum v = true) : '<' ∉ pyStr v := by
  cases v with
  | jbool b => cases b <;> decide
  | jint n =>
    show '<' ∉ intRepr n
    unfold intRepr
    by_cases hn : n < 0
    · rw [if_pos hn]
      intro hm
      rcases List.mem_cons.mp hm with h1 | h1
      · exact absurd h1 (by decide)
      · exact natRepr_no_lt _ h1
    · rw [if_neg hn]
      exact natRepr_no_lt _
  | jfloat m e =>
    show '<' ∉ floatRepr m e
    unfold floatRepr
    have hsign : '<' ∉ (if (stripZeros m e).1 < 0 then ['-'] else ([] : Str)) := by
      split <;> decide
    by_cases h0 : (stripZeros m e).2 = 0
    · rw [if_pos h0]
      exact no_lt_append (no_lt_append hsign (natRepr_no_lt _)) (by decide)
    · rw [if_neg h0]
      refine no_lt_append (no_lt_append hsign (natRepr_no_lt _)) ?_
      intro hm
      rcases List.mem_cons.mp hm with h1 | h1
      · exact absurd h1 (by decide)
      rcases List.mem_append.mp h1 with h2 | h2
      · have := List.eq_of_mem_replicate h2
        exact absurd this (by decide)
      · exact natRepr_no_lt _ h2
  | jnull => exact absurd h (by simp [isNum])
  | jstr s => exact absurd h (by simp [isNum])
  | jarr xs => exact absurd h (by simp [isNum])
  | jobj fs => exact absurd h (by simp [isNum])

theorem wptFree_pyStr_num {v : Json} (h : isNum v = true) : wptFree (pyStr v) :=
  wptFree_of_no_lt (pyStr_num_no_lt h)

theorem wptFree_flatten :
    ∀ l : List Str, (∀ x ∈ l, wptFree x) → wptFree l.flatten := by
  intro l
  induction l with
  | nil => intro _; exact wptFree_nil
  | cons x t ih =>
    intro h
    rw [List.flatten_cons]
    exact wptFree_append (h x (List.mem_cons_self _ _))
      (ih (fun y hy => h y (List.mem_cons_of_mem _ hy)))

/-- Appending a free (closed, occurrence-less) string on the right keeps
the waypoint count and closedness. -/
theorem wpt_chain {a b : Str} (hb : wptFree b)
    (ha : ltClosed a = true ∧ countWpt a = 1) :
    ltClosed (a ++ b) = true ∧ countWpt (a ++ b) = 1 :=
  ⟨ltClosed_append ha.1 hb.1, by rw [countWpt_append _ _ ha.1, ha.2, hb.2]⟩

theorem wptFree_ite {c : Prop} [Decidable c] {a b : Str}
    (ha : wptFree a) (hb : wptFree b) : wptFree (if c then a else b) := by
  by_cases hc : c
  · rwa [if_pos hc]
  · rwa [if_neg hc]

theorem wptFree_optField {c : Bool} {blk : Str} (hblk : wptFree blk) :
    ∀ x ∈ (if c = true then [blk] else []), wptFree x := by
  intro x hx
  by_cases hc : c = true
  · rw [if_pos hc] at hx
    obtain rfl := List.mem_singleton.mp hx
    exact hblk
  · rw [if_neg hc] at hx
    exact absurd hx (List.not_mem_nil x)

theorem wptFree_memAppend {l1 l2 : List Str}
    (h1 : ∀ x ∈ l1, wptFree x) (h2 : ∀ x ∈ l2, wptFree x) :
    ∀ x ∈ l1 ++ l2, wptFree x := by
  intro x hx
  rcases List.mem_append.mp hx with hx | hx
  · exact h1 x hx
  · exact h2 x hx

theorem build_wpt_count :
    ∀ item w, build_wpt item = .ok (some w) →
      ltClosed w = true ∧ countWpt w = 1 := by
  intro item w h
  unfold build_wpt at h
  split at h <;> try exact Except.noConfusion h
  split at h <;> try exact Except.noConfusion h
  simp only [] at h
  split at h
  case isTrue hnum =>
    split at h <;> try exact Except.noConfusion h
    rw [Bool.and_eq_true] at hnum
    obtain ⟨hlat, hlon⟩ := hnum
    have hw := Option.some.inj (Except.ok.inj h)
    subst hw
    refine wpt_chain ⟨by decide, by decide⟩ ?_
    refine wpt_chain ?_ ?_
    · refine wptFree_ite ?_ wptFree_nil
      refine wptFree_append (wptFree_append ⟨by decide, by decide⟩
        (wptFree_flatten _ ?_)) ⟨by decide, by decide⟩
      refine wptFree_memAppend (wptFree_memAppend (wptFree_memAppend ?_ ?_) ?_) ?_ <;>
        exact wptFree_optField (wptFree_append (wptFree_append
          ⟨by decide, by decide⟩ (wptFree_esc _)) ⟨by decide, by decide⟩)
    refine wpt_chain ?_ ?_
    · exact wptFree_ite (wptFree_append (wptFree_append ⟨by decide, by decide⟩
        (wptFree_esc _)) ⟨by decide, by decide⟩) wptFree_nil
    refine wpt_chain ⟨by decide, by decide⟩ ?_
    refine wpt_chain (wptFree_esc _) ?_
    refine wpt_chain ⟨by decide, by decide⟩ ?_
    refine wpt_chain ?_ ?_
    · exact wptFree_ite (wptFree_append (wptFree_append (wptFree_append
        (wptFree_append ⟨by decide, by decide⟩ (wptFree_esc _))
        ⟨by decide, by decide⟩) (wptFree_esc _)) ⟨by decide, by decide⟩) wptFree_nil
    refine wpt_chain ⟨by decide, by decide⟩ ?_
    refine wpt_chain (wptFree_esc _) ?_
    refine wpt_chain ⟨by decide, by decide⟩ ?_
    refine wpt_chain (wptFree_pyStr_num hlon) ?_
    refine wpt_chain ⟨by decide, by decide⟩ ?_
    refine wpt_chain (wptFree_pyStr_num hlat) ?_
    exact ⟨by decide, by decide⟩
  case isFalse => exact Option.noConfusion (Except.ok.inj h)

theorem wptsOf_spec :
    ∀ items ws, wptsOf items = .ok ws →
      ws.length = items.countP emitsWpt ∧
      ∀ w ∈ ws, ltClosed w = true ∧ countWpt w = 1 := by
  intro items
  induction items with
  | nil =>
    intro ws h
    have hws : ([] : List Str) = ws := Except.ok.inj h
    subst hws
    exact ⟨by simp, fun w hw => absurd hw (List.not_mem_nil w)⟩
  | cons x rest ih =>
    intro ws h
    simp only [wptsOf] at h
    rcases hb : build_wpt x with e | w0 <;> rw [hb] at h
    · exact Except.noConfusion h
    rcases hr : wptsOf rest with e | ws' <;> rw [hr] at h
    · exact Except.noConfusion h
    obtain ⟨hlen, hmem⟩ := ih ws' hr
    rcases w0 with _ | w1
    · have hws : ws' = ws := Except.ok.inj h
      subst hws
      have hem : emitsWpt x = false := by simp [emitsWpt, hb]
      refine ⟨?_, hmem⟩
      rw [List.countP_cons, hem]
      simp [hlen]
    · have hws : w1 :: ws' = ws := Except.ok.inj h
      subst hws
      have hem : emitsWpt x = true := by simp [emitsWpt, hb]
      refine ⟨?_, ?_⟩
      · rw [List.countP_cons, hem, List.length_cons, hlen]
        simp
      · intro w hw
        rcases List.mem_cons.mp hw with rfl | hw
        · exact build_wpt_count x w hb
        · exact hmem w hw

theorem strJoinSep_count :
    ∀ ws : List Str, (∀ w ∈ ws, ltClosed w = true ∧ countWpt w = 1) →
      ltClosed (strJoinSep "\n".data ws) = true ∧
      countWpt (strJoinSep "\n".data ws) = ws.length := by
  intro ws
  induction ws with
  | nil => intro _; exact ⟨rfl, rfl⟩
  | cons w rest ih =>
    intro hmem
    have hw := hmem w (List.mem_cons_self _ _)
    rcases rest with _ | ⟨w2, t⟩
    · simpa [strJoinSep] using ⟨hw.1, hw.2⟩
    · have hrest := ih (fun x hx => hmem x (List.mem_cons_of_mem _ hx))
      rw [show strJoinSep "\n".data (w :: w2 :: t) =
        (w ++ "\n".data) ++ strJoinSep "\n".data (w2 :: t) from rfl]
      have hws : ltClosed (w ++ "\n".data) = true :=
        ltClosed_append hw.1 (by decide)
      refine ⟨ltClosed_append hws hrest.1, ?_⟩
      rw [countWpt_append _ _ hws, countWpt_append _ _ hw.1, hw.2, hrest.2]
      have hn : countWpt ("\n".data) = 0 := by decide
      rw [hn]
      simp only [List.length_cons]
      omega

set_option maxRecDepth 4000 in
theorem countWpt_doc (gen : Json) (nw : Str) (ws : List Str)
    (hmem : ∀ w ∈ ws, ltClosed w = true ∧ countWpt w = 1) :
    countWpt (("<?xml version=\"1.0\" encoding=\"UTF-8\"?>\n<gpx version=\"1.1\"\n     creator=\"".data ++
        esc gen ++
        "\"\n     xmlns=\"http://www.topografix.com/GPX/1/1\"\n     xmlns:xsi=\"http://www.w3.org/2001/XMLSchema-instance\"\n     xmlns:sa=\"https://streetart.media/ns/1.0\"\n     xsi:schemaLocation=\"http://www.topografix.com/GPX/1/1\n                         http://www.topografix.com/GPX/1/1/gpx.xsd\">\n  <metadata>\n    <time>".data ++
        esc (.jstr nw) ++
        "</time>\n  </metadata>\n".data) ++
        strJoinSep "\n".data ws ++ "\n</gpx>\n".data) = ws.length := by
  obtain ⟨hjc, hjn⟩ := strJoinSep_count ws hmem
  have hhead : wptFree ("<?xml version=\"1.0\" encoding=\"UTF-8\"?>\n<gpx version=\"1.1\"\n     creator=\"".data ++
      esc gen ++
      "\"\n     xmlns=\"http://www.topografix.com/GPX/1/1\"\n     xmlns:xsi=\"http://www.w3.org/2001/XMLSchema-instance\"\n     xmlns:sa=\"https://streetart.media/ns/1.0\"\n     xsi:schemaLocation=\"http://www.topografix.com/GPX/1/1\n                         http://www.topografix.com/GPX/1/1/gpx.xsd\">\n  <metadata>\n    <time>".data ++
      esc (.jstr nw) ++
      "</time>\n  </metadata>\n".data) :=
    wptFree_append (wptFree_append (wptFree_append (wptFree_append
      ⟨by decide, by decide⟩ (wptFree_esc _)) ⟨by decide, by decide⟩)
      (wptFree_esc _)) ⟨by decide, by decide⟩
  rw [countWpt_append _ _ (ltClosed_append hhead.1 hjc),
    countWpt_append _ _ hhead.1, hhead.2, hjn]
  have ht : countWpt ("\n</gpx>\n".data) = 0 := by decide
  rw [ht]
  omega

set_option maxRecDepth 4000 in
theorem build_gpx_count :
    ∀ items meta nw g, build_gpx items meta nw = .ok g →
      countWpt g = items.countP emitsWpt := by
  intro items meta nw g h
  unfold build_gpx at h
  split at h <;> try exact Except.noConfusion h
  simp only [] at h
  rcases hw : wptsOf items with e | ws <;> rw [hw] at h
  · exact Except.noConfusion h
  have hg := Except.ok.inj h
  subst hg
  obtain ⟨hlen, hmem⟩ := wptsOf_spec items ws hw
  exact (countWpt_doc _ _ ws hmem).trans hlen

/-- Claim C10: on every run that writes output, the waypoint count printed
on standard output — `gpx.count('<wpt ')` over the generated text — equals
the number of merged items that passed the numeric-coordinate check: XML
escaping keeps every item-derived fragment free of `'<'`, so only the
serializer's own waypoint openers are counted. -/
theorem C10_theorem :
    (∀ items meta nw g, build_gpx items meta nw = .ok g →
      countWpt g = items.countP emitsWpt) ∧
    (∀ srcs noDedup out nw allItems meta merged g,
      loadLoop srcs [] .jnull = .ok (allItems, meta) →
      mergeItems noDedup allItems = .ok merged →
      build_gpx merged meta nw = .ok g →
      mainRun srcs noDedup out nw =
        ⟨0, [],
          ["Saved GPX to ".data ++ derive_output_path (srcs.map Prod.fst) out ++
            "  (waypoints: ".data ++ natRepr (countWpt g) ++ ")".data],
          some (derive_output_path (srcs.map Prod.fst) out, g)⟩ ∧
      countWpt g = merged.countP emitsWpt) := by
  refine ⟨build_gpx_count, ?_⟩
  intro srcs noDedup out nw allItems meta merged g h1 h2 h3
  refine ⟨?_, build_gpx_count merged meta nw g h3⟩
  simp only [mainRun, h1, h2, h3]

set_option maxRecDepth 10000 in
/-- Witness for C10 on the concrete sample run: three items, two of which
pass the coordinate check, and the printed count is 2. -/
theorem C10_witness :
    (mainRun [("x.json".data, .ok (.jobj [("items".data, .jarr sampleItems)]))]
        false none "T".data =
      ⟨0, [],
        ["Saved GPX to ".data ++
          derive_output_path ["x.json".data] none ++
          "  (waypoints: ".data ++ natRepr (countWpt sampleGpx) ++ ")".data],
        some (derive_output_path ["x.json".data] none, sampleGpx)⟩ ∧
      countWpt sampleGpx = sampleItems.countP emitsWpt) ∧
    countWpt sampleGpx = 2 :=
  ⟨C10_theorem.2 [("x.json".data, .ok (.jobj [("items".data, .jarr sampleItems)]))]
      false none "T".data sampleItems .jnull sampleItems sampleGpx rfl rfl rfl,
    by decide⟩

end StreetArt
